import Mathlib

/-!
# Verification of the bookletMaker imposition core

Shallow embedding of the imposition engine of the bookletMaker repository:

* `parse_page_selection` — `booklet_maker.py`, page-selection parser;
* `calculate_booklet_order` — `booklet_maker.py`, the imposition planner;
* `SpreadPair` / `mkSpreadPair` — `src/models.py`, spread value object;
* `check_spread_alignment` — `src/validators.py`, spread alignment validator;
* `calculate_smart_blanks` — `src/services/smart_blanks_service.py`.

Page references are modelled by `PageRef`: the Python code stores either an
`int` page number or the string `"blank"` in its working lists.
-/

inductive PageRef where
  | page (n : Nat)
  | blank
deriving DecidableEq

/-- One physical sheet of the imposition plan.  The Python planner emits the
tuple `(front_left, front_right, back_left, back_right)`. -/
structure Sheet where
  front_left : PageRef
  front_right : PageRef
  back_left : PageRef
  back_right : PageRef
deriving DecidableEq

/-- Python `str.strip()` / whitespace test, over the character list model of
strings (space, tab, newline, carriage return, vertical tab, form feed). -/
def pyIsSpace (c : Char) : Bool :=
  c = ' ' ∨ c = '\t' ∨ c = '\n' ∨ c = '\r' ∨ c = '\x0b' ∨ c = '\x0c'

/-- Python `str.strip()`: remove leading and trailing whitespace. -/
def pyStrip (s : List Char) : List Char :=
  (((s.dropWhile pyIsSpace).reverse).dropWhile pyIsSpace).reverse

/-- Python `str.lower()` on the ASCII range reachable from selection text. -/
def pyLower (c : Char) : Char :=
  if 'A' ≤ c ∧ c ≤ 'Z' then Char.ofNat (c.toNat + 32) else c

/-- Helper of `pySplit`: accumulate the current piece (reversed). -/
def pySplitAux (sep : Char) : List Char → List Char → List (List Char)
  | [], acc => [acc.reverse]
  | c :: rest, acc =>
    if c = sep then acc.reverse :: pySplitAux sep rest []
    else pySplitAux sep rest (c :: acc)

/-- Python `str.split(sep)` for a one-character separator:
`"".split(sep) = [""]`, separators produce empty pieces. -/
def pySplit (sep : Char) (s : List Char) : List (List Char) :=
  pySplitAux sep s []

/-- Models Python `int(s)` on the token fragments reachable from
`parse_page_selection`: optional surrounding whitespace, an optional leading
`+` sign, then a non-empty run of decimal digits.  (Fragments containing `-`
never reach `int` as a sign, because the parser splits tokens on `-` first.) -/
def pyInt? (s : List Char) : Option Nat :=
  let t := pyStrip s
  let t := if t.head? = some '+' then t.tail else t
  if t.isEmpty then none
  else if t.all Char.isDigit then
    some (t.foldl (fun acc c => acc * 10 + (c.toNat - '0'.toNat)) 0)
  else none

/-- Expansion of one comma-separated token of the selection string, following
`parse_page_selection` in `booklet_maker.py`: the token is stripped and
lowercased; `b`/`blank` yields a blank marker; a token containing `-` is an
ascending page range whose endpoints are adjusted by `start := max 1 start`,
`end := min total_pages end` whenever `start < 1` or `end > total_pages`;
otherwise a single page number, kept only when within `[1, total_pages]`.
Malformed tokens contribute nothing. -/
def tokenPages (total_pages : Nat) (raw : List Char) : List PageRef :=
  let part := (pyStrip raw).map pyLower
  if part = "b".data ∨ part = "blank".data then
    [PageRef.blank]
  else if part.contains '-' then
    match pySplit '-' part with
    | [s1, s2] =>
      match pyInt? s1, pyInt? s2 with
      | some start, some stop =>
        let (start, stop) :=
          if start < 1 ∨ total_pages < stop then (max 1 start, min total_pages stop)
          else (start, stop)
        (List.range' start (stop + 1 - start)).map PageRef.page
      | _, _ => []
    | _ => []
  else
    match pyInt? part with
    | some p => if 1 ≤ p ∧ p ≤ total_pages then [PageRef.page p] else []
    | none => []

/-- `parse_page_selection` from `booklet_maker.py`: split the selection string
on commas and concatenate each token's expansion in order. -/
def parse_page_selection (selection_str : String) (total_pages : Nat) : List PageRef :=
  ((pySplit ',' selection_str.data).map (tokenPages total_pages)).flatten

/-- Signature sizes computed by `calculate_booklet_order`: distribute
`total_pages` over `num_signatures` groups as evenly as possible, then round
each group size up to the next multiple of 4 independently. -/
def signatureSizes (total_pages num_signatures : Nat) : List Nat :=
  (List.range num_signatures).map fun i =>
    ((total_pages / num_signatures +
        (if i < total_pages % num_signatures then 1 else 0)) + 3) / 4 * 4

/-- The `while len(padded_pages) < total_needed: padded_pages.append("blank")`
loop of `calculate_booklet_order`. -/
def padBlanks (pages : List PageRef) (total_needed : Nat) : List PageRef :=
  if pages.length < total_needed then padBlanks (pages ++ [PageRef.blank]) total_needed
  else pages
termination_by total_needed - pages.length
decreasing_by simp; omega

/-- Slicing of the padded selection into contiguous per-signature chunks with a
running offset, as in the `padded_pages[page_offset:page_offset + sig_size]`
loop. -/
def sliceChunks (padded : List PageRef) : List Nat → List (List PageRef)
  | [] => []
  | s :: rest => padded.take s :: sliceChunks (padded.drop s) rest

/-- One sheet of a signature: indices follow the source
(`front_left_idx = n - 1 - 2*i`, `front_right_idx = 2*i`,
`back_left_idx = 2*i + 1`, `back_right_idx = n - 2 - 2*i`), with the
left/right swap applied in manga reading order.  All indices are in bounds
for the chunks produced by the planner, so `getD` never falls back to its
default there. -/
def makeSheet (sig_pages : List PageRef) (n i : Nat) (manga : Bool) : Sheet :=
  let front_left := sig_pages.getD (n - 1 - 2 * i) PageRef.blank
  let front_right := sig_pages.getD (2 * i) PageRef.blank
  let back_left := sig_pages.getD (2 * i + 1) PageRef.blank
  let back_right := sig_pages.getD (n - 2 - 2 * i) PageRef.blank
  if manga then ⟨front_right, front_left, back_right, back_left⟩
  else ⟨front_left, front_right, back_left, back_right⟩

/-- The sheets of one signature: `sig_size // 4` sheets in sheet-index order. -/
def imposeSignature (sig_pages : List PageRef) (sig_size : Nat) (manga : Bool) : List Sheet :=
  (List.range (sig_size / 4)).map fun i => makeSheet sig_pages sig_size i manga

/-- `calculate_booklet_order` from `booklet_maker.py`. -/
def calculate_booklet_order (pages : List PageRef) (num_signatures : Nat)
    (reading_order : String) : List (List Sheet) :=
  let sizes := signatureSizes pages.length num_signatures
  let padded := padBlanks pages sizes.sum
  List.zipWith (fun chunk s => imposeSignature chunk s (reading_order = "manga"))
    (sliceChunks padded sizes) sizes

/-- The four page references carried by a sheet, in source tuple order. -/
def sheetRefs (s : Sheet) : List PageRef :=
  [s.front_left, s.front_right, s.back_left, s.back_right]

/-- Left/right mirror of a sheet (front pair and back pair swapped). -/
def mirrorSheet (s : Sheet) : Sheet :=
  ⟨s.front_right, s.front_left, s.back_right, s.back_left⟩

/-- All-blank sheet, used as an out-of-range default. -/
def blankSheet : Sheet :=
  ⟨PageRef.blank, PageRef.blank, PageRef.blank, PageRef.blank⟩

/-- `SpreadPair` from `src/models.py`: a user-marked double-page spread.
Constructed through `mkSpreadPair`, which models `__post_init__`. -/
structure SpreadPair where
  left_page : Int
  right_page : Int
deriving DecidableEq

/-- `SpreadPair.__post_init__`: reject non-adjacent pages
(`abs(left - right) != 1`), then normalize so that `left < right`. -/
def mkSpreadPair (left_page right_page : Int) : Except String SpreadPair :=
  if (left_page - right_page).natAbs ≠ 1 then
    Except.error s!"Spread pages must be adjacent, got {left_page} and {right_page}"
  else if right_page < left_page then Except.ok ⟨right_page, left_page⟩
  else Except.ok ⟨left_page, right_page⟩

/-- The position-scanning loop of `check_spread_alignment` for one page value:
`for i, page_num in enumerate(pages): if page_num == x: pos = i`.  Later
matches overwrite earlier ones, so this records the last occurrence. -/
def scanLast (pages : List Int) (x : Int) : Option Nat :=
  pages.enum.foldl (fun acc p => if p.2 = x then some p.1 else acc) none

/-- Both position scans of `check_spread_alignment` run over one traversal of
`pages` in the source; componentwise they are `scanLast`. -/
def scanPositions (pages : List Int) (l r : Int) : Option Nat × Option Nat :=
  pages.enum.foldl
    (fun acc p =>
      (if p.2 = l then some p.1 else acc.1, if p.2 = r then some p.1 else acc.2))
    (none, none)

/-- `SpreadValidator.check_spread_alignment` from `src/validators.py`: for each
spread locate its two pages in `pages`, skip the spread when either page is
absent, and otherwise report `(spread, pos_left, pos_right, is_aligned)` with
`is_aligned = (pos_left % 2 == 1 and pos_right == pos_left + 1) or
(pos_right % 2 == 1 and pos_left == pos_right + 1)`. -/
def check_spread_alignment (pages : List Int) (spreads : List SpreadPair) :
    List (SpreadPair × Nat × Nat × Bool) :=
  spreads.filterMap fun spread =>
    match scanPositions pages spread.left_page spread.right_page with
    | (some pos_left, some pos_right) =>
      some (spread, pos_left, pos_right,
        (pos_left % 2 == 1 && pos_right == pos_left + 1) ||
        (pos_right % 2 == 1 && pos_left == pos_right + 1))
    | _ => none

/-- Step 1 of `SmartBlanksService.calculate_smart_blanks`: when a front cover
is set (a truthy page number) and present, insert one leading blank iff its
first index is positive. -/
def front_cover_step (front_cover : Option Nat) (pages : List PageRef) :
    List PageRef × List String :=
  match front_cover with
  | some fc =>
    if fc ≠ 0 ∧ PageRef.page fc ∈ pages then
      if 0 < List.indexOf (PageRef.page fc) pages then
        (PageRef.blank :: pages, [s!"Added blank before front cover (page {fc})"])
      else (pages, [])
    else (pages, [])
  | none => (pages, [])

/-- One iteration of step 2 of `calculate_smart_blanks`: when both pages of a
spread are present, adjacent in the current list, and the left one sits at an
even 0-based position, insert one blank immediately before it. -/
def spread_step (acc : List PageRef × List String) (pair : Nat × Nat) :
    List PageRef × List String :=
  let result := acc.1
  if PageRef.page pair.1 ∈ result ∧ PageRef.page pair.2 ∈ result then
    let left_pos := List.indexOf (PageRef.page pair.1) result
    let right_pos := List.indexOf (PageRef.page pair.2) result
    if ((left_pos : Int) - right_pos).natAbs = 1 then
      if left_pos % 2 = 0 then
        (result.insertIdx left_pos PageRef.blank,
         acc.2 ++ [s!"Added blank to align spread ({pair.1}-{pair.2})"])
      else acc
    else acc
  else acc

/-- Step 2 of `calculate_smart_blanks`: the spread pairs are processed in input
order, each insertion feeding the next iteration. -/
def spreads_step (spread_pairs : List (Nat × Nat)) (acc : List PageRef × List String) :
    List PageRef × List String :=
  spread_pairs.foldl spread_step acc

/-- The working list after the front-cover and spread-alignment steps. -/
def afterSpreadSteps (pages : List PageRef) (front_cover : Option Nat)
    (spread_pairs : List (Nat × Nat)) : List PageRef :=
  (spreads_step spread_pairs (front_cover_step front_cover pages)).1

/-- The `for _ in range(n): result.insert(pos, "blank")` loop of step 4. -/
def insertRepeated (pos : Nat) (x : PageRef) : Nat → List PageRef → List PageRef
  | 0, l => l
  | n + 1, l => (insertRepeated pos x n l).insertIdx pos x

/-- Steps 3–4 of `calculate_smart_blanks`: compute the padding target
(`((len + 3) // 4) * 4`); when a back cover is set (truthy) and present,
insert `(target - 1) - bc_pos` blanks immediately before it; otherwise append
`target - len` trailing blanks when that count is positive. -/
def back_cover_step (back_cover : Option Nat) (acc : List PageRef × List String) :
    List PageRef × List String :=
  let result := acc.1
  let target_count := (result.length + 3) / 4 * 4
  let blanks_needed := target_count - result.length
  let fill : List PageRef × List String :=
    if 0 < blanks_needed then
      (result ++ List.replicate blanks_needed PageRef.blank,
       acc.2 ++ [s!"Added {blanks_needed} blank(s) to fill booklet"])
    else acc
  match back_cover with
  | some bc =>
    if bc ≠ 0 ∧ PageRef.page bc ∈ result then
      let bc_pos := List.indexOf (PageRef.page bc) result
      let blanks_before_back := (target_count - 1) - bc_pos
      if 0 < blanks_before_back then
        (insertRepeated bc_pos PageRef.blank blanks_before_back result,
         acc.2 ++ [s!"Added {blanks_before_back} blank(s) to position back cover last"])
      else acc
    else fill
  | none => fill

/-- `SmartBlanksService.calculate_smart_blanks` from
`src/services/smart_blanks_service.py`. -/
def calculate_smart_blanks (pages : List PageRef) (front_cover back_cover : Option Nat)
    (spread_pairs : List (Nat × Nat)) : List PageRef × List String :=
  back_cover_step back_cover (spreads_step spread_pairs (front_cover_step front_cover pages))

/-! ## Helper lemmas about the planner -/

lemma padBlanks_eq (pages : List PageRef) (n : Nat) :
    padBlanks pages n = pages ++ List.replicate (n - pages.length) PageRef.blank := by
  rw [padBlanks]
  split
  · rename_i h
    rw [padBlanks_eq (pages ++ [PageRef.blank]) n]
    have h1 : n - pages.length = (n - (pages.length + 1)) + 1 := by omega
    simp [List.append_assoc, h1, List.replicate_succ]
  · rename_i h
    have h1 : n - pages.length = 0 := by omega
    simp [h1]
termination_by n - pages.length
decreasing_by simp; omega

lemma length_padBlanks (pages : List PageRef) (n : Nat) :
    (padBlanks pages n).length = max pages.length n := by
  rw [padBlanks_eq]
  simp
  omega

lemma length_sliceChunks (l : List PageRef) (sizes : List Nat) :
    (sliceChunks l sizes).length = sizes.length := by
  induction sizes generalizing l with
  | nil => rfl
  | cons s rest ih => simp [sliceChunks, ih]

lemma sliceChunks_getD (sizes : List Nat) (l : List PageRef) (j : Nat) :
    (sliceChunks l sizes).getD j [] =
      (l.drop ((sizes.take j).sum)).take (sizes.getD j 0) := by
  induction sizes generalizing l j with
  | nil => simp [sliceChunks]
  | cons s rest ih =>
    cases j with
    | zero => simp [sliceChunks]
    | succ j =>
      simp only [sliceChunks, List.getD_cons_succ, ih (l.drop s) j, List.drop_drop,
        List.take_succ_cons, List.sum_cons]

lemma sum_range_distribute (a r : Nat) :
    ∀ k, ((List.range k).map fun i => a + if i < r then 1 else 0).sum = k * a + min k r := by
  intro k
  induction k with
  | zero => simp
  | succ k ih =>
    rw [List.range_succ, List.map_append, List.sum_append, ih]
    simp only [List.map_cons, List.map_nil, List.sum_cons, List.sum_nil]
    by_cases h : k < r
    · simp [h, Nat.succ_mul]; omega
    · simp [h, Nat.succ_mul]; omega

lemma length_signatureSizes (total k : Nat) : (signatureSizes total k).length = k := by
  simp [signatureSizes]

lemma signatureSizes_getD (total k i : Nat) (hi : i < k) :
    (signatureSizes total k).getD i 0 =
      ((total / k + (if i < total % k then 1 else 0)) + 3) / 4 * 4 := by
  simp only [signatureSizes]
  rw [List.getD_eq_getElem?_getD]
  rw [List.getElem?_map]
  simp [List.getElem?_range hi]

lemma signatureSizes_sum (total k : Nat) (hk : 1 ≤ k) :
    total ≤ (signatureSizes total k).sum ∧
      ((List.range k).map fun i =>
        total / k + if i < total % k then 1 else 0).sum = total := by
  have hbase : ((List.range k).map fun i =>
      total / k + if i < total % k then 1 else 0).sum = k * (total / k) + min k (total % k) :=
    sum_range_distribute (total / k) (total % k) k
  have hmod : total % k < k := Nat.mod_lt _ hk
  have hdm : k * (total / k) + total % k = total := Nat.div_add_mod total k
  constructor
  · calc total = k * (total / k) + min k (total % k) := by omega
    _ = ((List.range k).map fun i => total / k + if i < total % k then 1 else 0).sum :=
        hbase.symm
    _ ≤ (signatureSizes total k).sum := by
        unfold signatureSizes
        apply List.sum_le_sum
        intro i _
        omega
  · omega

/-! ## Permutation structure of one imposed signature -/

lemma map_getD_range {α : Type} (l : List α) (d : α) :
    (List.range l.length).map (fun i => l.getD i d) = l := by
  apply List.ext_getElem
  · simp
  · intro i h1 h2
    simp only [List.getElem_map, List.getElem_range, List.getD_eq_getElem?_getD,
      List.getElem?_eq_getElem h2, Option.getD_some]

lemma flatten_map_append_perm {α : Type} (f g : Nat → List α) (l : List Nat) :
    ((l.map fun i => f i ++ g i).flatten).Perm
      ((l.map f).flatten ++ (l.map g).flatten) := by
  induction l with
  | nil => simp
  | cons a t ih =>
    simp only [List.map_cons, List.flatten_cons]
    refine (List.Perm.append_left (f a ++ g a) ih).trans ?_
    have h1 : f a ++ g a ++ ((t.map f).flatten ++ (t.map g).flatten)
        = f a ++ ((g a ++ (t.map f).flatten) ++ (t.map g).flatten) := by
      simp [List.append_assoc]
    have h2 : f a ++ (t.map f).flatten ++ (g a ++ (t.map g).flatten)
        = f a ++ (((t.map f).flatten ++ g a) ++ (t.map g).flatten) := by
      simp [List.append_assoc]
    rw [h1, h2]
    exact List.Perm.append_left _ (List.Perm.append_right _ List.perm_append_comm)

lemma front_pairs_flatten (m : Nat) :
    ((List.range m).map fun i => [2 * i, 2 * i + 1]).flatten = List.range (2 * m) := by
  induction m with
  | zero => simp
  | succ m ih =>
    rw [List.range_succ, List.map_append, List.flatten_append, ih]
    have h2 : 2 * (m + 1) = (2 * m + 1) + 1 := by omega
    rw [h2, List.range_succ, List.range_succ]
    simp

lemma back_pairs_flatten_perm (m a : Nat) (h : 2 * m ≤ a) :
    (((List.range m).map fun i => [a - 2 - 2 * i, a - 1 - 2 * i]).flatten).Perm
      (List.range' (a - 2 * m) (2 * m)) := by
  induction m with
  | zero => simp
  | succ m ih =>
    rw [List.range_succ, List.map_append, List.flatten_append]
    have hrec := ih (by omega)
    have hsplit : List.range' (a - 2 * (m + 1)) (2 * (m + 1)) =
        (a - 2 * (m + 1)) :: (a - 2 * (m + 1) + 1) :: List.range' (a - 2 * m) (2 * m) := by
      rw [show 2 * (m + 1) = (2 * m + 1) + 1 from by omega, List.range'_succ, List.range'_succ]
      rw [show a - (2 * m + 1 + 1) + 1 + 1 = a - 2 * m from by omega]
    rw [hsplit]
    have h3 : a - 2 - 2 * m = a - 2 * (m + 1) := by omega
    have h4 : a - 1 - 2 * m = a - 2 * (m + 1) + 1 := by omega
    simp only [List.map_cons, List.map_nil, List.flatten_cons, List.flatten_nil,
      List.append_nil, h3, h4]
    refine List.Perm.trans List.perm_append_comm ?_
    exact List.Perm.append_left _ hrec

lemma forall₂_perm_map {α γ : Type} (l : List γ) (f g : γ → List α)
    (h : ∀ x ∈ l, (f x).Perm (g x)) :
    List.Forall₂ (fun x1 x2 => List.Perm x1 x2) (l.map f) (l.map g) := by
  induction l with
  | nil => simp
  | cons a t ih =>
    simp only [List.map_cons]
    exact List.Forall₂.cons (h a (by simp)) (ih fun x hx => h x (List.mem_cons_of_mem a hx))

lemma sheetRefs_makeSheet_perm (chunk : List PageRef) (n i : Nat) (manga : Bool) :
    (sheetRefs (makeSheet chunk n i manga)).Perm
      ([2 * i, 2 * i + 1, n - 2 - 2 * i, n - 1 - 2 * i].map
        (fun j => chunk.getD j PageRef.blank)) := by
  cases manga with
  | false =>
    simp only [sheetRefs, makeSheet, Bool.false_eq_true, if_false, List.map_cons, List.map_nil]
    exact @List.perm_append_comm PageRef
      [chunk.getD (n - 1 - 2 * i) PageRef.blank]
      [chunk.getD (2 * i) PageRef.blank, chunk.getD (2 * i + 1) PageRef.blank,
        chunk.getD (n - 2 - 2 * i) PageRef.blank]
  | true =>
    simp only [sheetRefs, makeSheet, if_true, List.map_cons, List.map_nil]
    exact List.Perm.cons _ (List.reverse_perm
      [chunk.getD (2 * i + 1) PageRef.blank, chunk.getD (n - 2 - 2 * i) PageRef.blank,
        chunk.getD (n - 1 - 2 * i) PageRef.blank])

lemma index_flatten_perm (m n : Nat) (hn : n = 4 * m) :
    (((List.range m).map fun i => [2 * i, 2 * i + 1, n - 2 - 2 * i, n - 1 - 2 * i]).flatten).Perm
      (List.range n) := by
  have hsplit : ∀ i : Nat, [2 * i, 2 * i + 1, n - 2 - 2 * i, n - 1 - 2 * i]
      = [2 * i, 2 * i + 1] ++ [n - 2 - 2 * i, n - 1 - 2 * i] := fun i => rfl
  have h1 := flatten_map_append_perm (fun i => [2 * i, 2 * i + 1])
    (fun i => [n - 2 - 2 * i, n - 1 - 2 * i]) (List.range m)
  simp only [hsplit]
  refine h1.trans ?_
  rw [front_pairs_flatten m]
  have h2 := back_pairs_flatten_perm m n (by omega)
  have h3 : n - 2 * m = 2 * m := by omega
  rw [h3] at h2
  refine (List.Perm.append_left _ h2).trans ?_
  rw [List.range_eq_range' (2 * m), List.range_eq_range' n]
  have h4 := List.range'_append 0 (2 * m) (2 * m) 1
  simp only [Nat.one_mul, Nat.zero_add] at h4
  rw [h4]
  have h5 : 2 * m + 2 * m = n := by omega
  rw [h5]

lemma imposeSignature_flatMap_perm (chunk : List PageRef) (n : Nat) (manga : Bool)
    (hlen : chunk.length = n) (hmod : n % 4 = 0) :
    ((imposeSignature chunk n manga).flatMap sheetRefs).Perm chunk := by
  have h0 : (imposeSignature chunk n manga).flatMap sheetRefs
      = ((List.range (n / 4)).map
          fun i => sheetRefs (makeSheet chunk n i manga)).flatten := by
    simp [imposeSignature, List.flatMap_def, List.map_map]
    rfl
  rw [h0]
  have hA : (((List.range (n / 4)).map
      fun i => sheetRefs (makeSheet chunk n i manga)).flatten).Perm
      (((List.range (n / 4)).map fun i =>
        [2 * i, 2 * i + 1, n - 2 - 2 * i, n - 1 - 2 * i].map
          (fun j => chunk.getD j PageRef.blank)).flatten) :=
    List.Perm.flatten_congr (forall₂_perm_map _ _ _
      fun i _ => sheetRefs_makeSheet_perm chunk n i manga)
  refine hA.trans ?_
  have hC : ((List.range (n / 4)).map fun i =>
      [2 * i, 2 * i + 1, n - 2 - 2 * i, n - 1 - 2 * i].map
        (fun j => chunk.getD j PageRef.blank)).flatten
      = (((List.range (n / 4)).map
          fun i => [2 * i, 2 * i + 1, n - 2 - 2 * i, n - 1 - 2 * i]).flatten).map
        (fun j => chunk.getD j PageRef.blank) := by
    rw [List.map_flatten, List.map_map]
    rfl
  rw [hC]
  have hD := index_flatten_perm (n / 4) n (by omega)
  refine (hD.map (fun j => chunk.getD j PageRef.blank)).trans ?_
  rw [← hlen, map_getD_range]

lemma sum_take_add_getD_le (sizes : List Nat) (j : Nat) (hj : j < sizes.length) :
    (sizes.take j).sum + sizes.getD j 0 ≤ sizes.sum := by
  have hget : sizes.getD j 0 = sizes[j] := by
    rw [List.getD_eq_getElem?_getD, List.getElem?_eq_getElem hj]
    rfl
  rw [hget, ← List.sum_take_succ sizes j hj]
  conv_rhs => rw [← List.take_append_drop (j + 1) sizes]
  rw [List.sum_append]
  omega

lemma zipWith_getD_of_lt {α β γ : Type} (f : α → β → γ) (as : List α) (bs : List β)
    (j : Nat) (d : γ) (da : α) (db : β) (hja : j < as.length) (hjb : j < bs.length) :
    (List.zipWith f as bs).getD j d = f (as.getD j da) (bs.getD j db) := by
  have hj : j < (List.zipWith f as bs).length := by
    rw [List.length_zipWith]
    exact lt_min hja hjb
  rw [List.getD_eq_getElem?_getD, List.getElem?_eq_getElem hj,
    List.getD_eq_getElem?_getD, List.getElem?_eq_getElem hja,
    List.getD_eq_getElem?_getD, List.getElem?_eq_getElem hjb]
  simp [List.getElem_zipWith]

lemma imposeSignature_manga (c : List PageRef) (s : Nat) :
    imposeSignature c s true = (imposeSignature c s false).map mirrorSheet := by
  simp only [imposeSignature, List.map_map]
  apply List.map_congr_left
  intro i _
  rfl

/-! ## Claim theorems -/

/-- C2: for every pages list and every `num_signatures ≥ 1`,
`calculate_booklet_order` distributes `len(pages)` as evenly as possible
(`len // k`, the first `len % k` groups one larger), rounds each group size up
to the next multiple of 4 independently, pads the selection on the right with
blanks up to the sum of the rounded sizes, and slices it into contiguous
chunks of those sizes in order. -/
theorem booklet_order_sizing_padding_slicing (pages : List PageRef) (k : Nat) (hk : 1 ≤ k) :
    (signatureSizes pages.length k).length = k
    ∧ (∀ i, i < k →
        (signatureSizes pages.length k).getD i 0 % 4 = 0
        ∧ pages.length / k + (if i < pages.length % k then 1 else 0)
            ≤ (signatureSizes pages.length k).getD i 0
        ∧ (signatureSizes pages.length k).getD i 0
            < pages.length / k + (if i < pages.length % k then 1 else 0) + 4)
    ∧ ((List.range k).map fun i =>
        pages.length / k + if i < pages.length % k then 1 else 0).sum = pages.length
    ∧ padBlanks pages (signatureSizes pages.length k).sum
        = pages ++ List.replicate
            ((signatureSizes pages.length k).sum - pages.length) PageRef.blank
    ∧ (padBlanks pages (signatureSizes pages.length k).sum).length
        = (signatureSizes pages.length k).sum
    ∧ (∀ j, j < k →
        (sliceChunks (padBlanks pages (signatureSizes pages.length k).sum)
            (signatureSizes pages.length k)).getD j []
          = ((padBlanks pages (signatureSizes pages.length k).sum).drop
              (((signatureSizes pages.length k).take j).sum)).take
              ((signatureSizes pages.length k).getD j 0)
        ∧ ((sliceChunks (padBlanks pages (signatureSizes pages.length k).sum)
            (signatureSizes pages.length k)).getD j []).length
          = (signatureSizes pages.length k).getD j 0) := by
  have hsum := signatureSizes_sum pages.length k hk
  have hlen : (padBlanks pages (signatureSizes pages.length k).sum).length
      = (signatureSizes pages.length k).sum := by
    rw [length_padBlanks]
    omega
  refine ⟨length_signatureSizes _ _, ?_, hsum.2, padBlanks_eq _ _, hlen, ?_⟩
  · intro i hi
    rw [signatureSizes_getD pages.length k i hi]
    omega
  · intro j hj
    have hj' : j < (signatureSizes pages.length k).length := by
      rw [length_signatureSizes]; exact hj
    refine ⟨sliceChunks_getD _ _ _, ?_⟩
    rw [sliceChunks_getD]
    have hle := sum_take_add_getD_le (signatureSizes pages.length k) j hj'
    simp only [List.length_take, List.length_drop, hlen]
    omega

theorem booklet_order_sizing_padding_slicing_witness :
    1 ≤ 2
    ∧ ((signatureSizes ([PageRef.page 1, PageRef.page 2, PageRef.page 3].length) 2).length = 2
    ∧ (∀ i, i < 2 →
        (signatureSizes ([PageRef.page 1, PageRef.page 2, PageRef.page 3].length) 2).getD i 0 % 4 = 0
        ∧ [PageRef.page 1, PageRef.page 2, PageRef.page 3].length / 2
            + (if i < [PageRef.page 1, PageRef.page 2, PageRef.page 3].length % 2 then 1 else 0)
            ≤ (signatureSizes ([PageRef.page 1, PageRef.page 2, PageRef.page 3].length) 2).getD i 0
        ∧ (signatureSizes ([PageRef.page 1, PageRef.page 2, PageRef.page 3].length) 2).getD i 0
            < [PageRef.page 1, PageRef.page 2, PageRef.page 3].length / 2
              + (if i < [PageRef.page 1, PageRef.page 2, PageRef.page 3].length % 2 then 1 else 0) + 4)
    ∧ ((List.range 2).map fun i =>
        [PageRef.page 1, PageRef.page 2, PageRef.page 3].length / 2
          + if i < [PageRef.page 1, PageRef.page 2, PageRef.page 3].length % 2 then 1 else 0).sum
        = [PageRef.page 1, PageRef.page 2, PageRef.page 3].length
    ∧ padBlanks [PageRef.page 1, PageRef.page 2, PageRef.page 3]
          (signatureSizes ([PageRef.page 1, PageRef.page 2, PageRef.page 3].length) 2).sum
        = [PageRef.page 1, PageRef.page 2, PageRef.page 3] ++ List.replicate
            ((signatureSizes ([PageRef.page 1, PageRef.page 2, PageRef.page 3].length) 2).sum
              - [PageRef.page 1, PageRef.page 2, PageRef.page 3].length) PageRef.blank
    ∧ (padBlanks [PageRef.page 1, PageRef.page 2, PageRef.page 3]
          (signatureSizes ([PageRef.page 1, PageRef.page 2, PageRef.page 3].length) 2).sum).length
        = (signatureSizes ([PageRef.page 1, PageRef.page 2, PageRef.page 3].length) 2).sum
    ∧ (∀ j, j < 2 →
        (sliceChunks (padBlanks [PageRef.page 1, PageRef.page 2, PageRef.page 3]
            (signatureSizes ([PageRef.page 1, PageRef.page 2, PageRef.page 3].length) 2).sum)
            (signatureSizes ([PageRef.page 1, PageRef.page 2, PageRef.page 3].length) 2)).getD j []
          = ((padBlanks [PageRef.page 1, PageRef.page 2, PageRef.page 3]
              (signatureSizes ([PageRef.page 1, PageRef.page 2, PageRef.page 3].length) 2).sum).drop
              (((signatureSizes ([PageRef.page 1, PageRef.page 2, PageRef.page 3].length) 2).take j).sum)).take
              ((signatureSizes ([PageRef.page 1, PageRef.page 2, PageRef.page 3].length) 2).getD j 0)
        ∧ ((sliceChunks (padBlanks [PageRef.page 1, PageRef.page 2, PageRef.page 3]
            (signatureSizes ([PageRef.page 1, PageRef.page 2, PageRef.page 3].length) 2).sum)
            (signatureSizes ([PageRef.page 1, PageRef.page 2, PageRef.page 3].length) 2)).getD j []).length
          = (signatureSizes ([PageRef.page 1, PageRef.page 2, PageRef.page 3].length) 2).getD j 0)) :=
  ⟨by decide,
    booklet_order_sizing_padding_slicing [PageRef.page 1, PageRef.page 2, PageRef.page 3] 2
      (by decide)⟩

lemma signatureSizes_one (total : Nat) (h : total % 4 = 0) :
    signatureSizes total 1 = [total] := by
  have h1 : List.range 1 = [0] := rfl
  simp only [signatureSizes, h1, List.map_cons, List.map_nil, Nat.div_one, Nat.mod_one]
  norm_num
  omega

lemma calculate_booklet_order_one_sig (pages : List PageRef) (h : pages.length % 4 = 0) :
    calculate_booklet_order pages 1 "western"
      = [imposeSignature pages pages.length false] := by
  simp only [calculate_booklet_order, signatureSizes_one pages.length h]
  have hpad : padBlanks pages (List.sum [pages.length]) = pages := by
    rw [padBlanks_eq]
    simp
  rw [hpad]
  simp [sliceChunks]

/-- C1: for a selection of length divisible by 4 imposed as one signature in
western order, sheet `i` carries `front_left = page[n-1-2i]`,
`front_right = page[2i]`, `back_left = page[2i+1]`,
`back_right = page[n-2-2i]`; sheet 0 holds the last and first elements on its
front, and selection `"1-8"` with 1 signature yields the two sheets
`(8,1,2,7)` and `(6,3,4,5)`. -/
theorem booklet_order_single_signature (pages : List PageRef) (h : pages.length % 4 = 0) :
    calculate_booklet_order pages 1 "western"
      = [(List.range (pages.length / 4)).map fun i =>
          Sheet.mk (pages.getD (pages.length - 1 - 2 * i) PageRef.blank)
            (pages.getD (2 * i) PageRef.blank)
            (pages.getD (2 * i + 1) PageRef.blank)
            (pages.getD (pages.length - 2 - 2 * i) PageRef.blank)]
    ∧ (0 < pages.length →
        (((calculate_booklet_order pages 1 "western").getD 0 []).getD 0 blankSheet).front_left
            = (pages.getLast?).getD PageRef.blank
        ∧ (((calculate_booklet_order pages 1 "western").getD 0 []).getD 0 blankSheet).front_right
            = (pages.head?).getD PageRef.blank)
    ∧ calculate_booklet_order (parse_page_selection "1-8" 8) 1 "western"
        = [[Sheet.mk (PageRef.page 8) (PageRef.page 1) (PageRef.page 2) (PageRef.page 7),
            Sheet.mk (PageRef.page 6) (PageRef.page 3) (PageRef.page 4) (PageRef.page 5)]] := by
  have hmain : calculate_booklet_order pages 1 "western"
      = [(List.range (pages.length / 4)).map fun i =>
          Sheet.mk (pages.getD (pages.length - 1 - 2 * i) PageRef.blank)
            (pages.getD (2 * i) PageRef.blank)
            (pages.getD (2 * i + 1) PageRef.blank)
            (pages.getD (pages.length - 2 - 2 * i) PageRef.blank)] := by
    rw [calculate_booklet_order_one_sig pages h]
    simp only [imposeSignature, makeSheet, Bool.false_eq_true, if_false]
  have hp : parse_page_selection "1-8" 8
      = [PageRef.page 1, PageRef.page 2, PageRef.page 3, PageRef.page 4,
         PageRef.page 5, PageRef.page 6, PageRef.page 7, PageRef.page 8] := by
    decide
  have hconc : calculate_booklet_order (parse_page_selection "1-8" 8) 1 "western"
      = [[Sheet.mk (PageRef.page 8) (PageRef.page 1) (PageRef.page 2) (PageRef.page 7),
          Sheet.mk (PageRef.page 6) (PageRef.page 3) (PageRef.page 4) (PageRef.page 5)]] := by
    rw [hp, calculate_booklet_order_one_sig _ (by decide)]
    decide
  refine ⟨hmain, ?_, hconc⟩
  intro hpos
  rw [hmain]
  have h4 : 0 < pages.length / 4 := by omega
  have hr : 0 < (List.range (pages.length / 4)).length := by
    rw [List.length_range]; exact h4
  constructor
  · rw [List.getD_cons_zero, List.getD_eq_getElem?_getD,
      List.getElem?_eq_getElem (by rw [List.length_map]; exact hr)]
    simp only [List.getElem_map, List.getElem_range, Option.getD_some]
    rw [List.getLast?_eq_getElem?, List.getD_eq_getElem?_getD]
    norm_num
  · rw [List.getD_cons_zero, List.getD_eq_getElem?_getD,
      List.getElem?_eq_getElem (by rw [List.length_map]; exact hr)]
    simp only [List.getElem_map, List.getElem_range, Option.getD_some]
    rw [List.head?_eq_getElem?, List.getD_eq_getElem?_getD]

theorem booklet_order_single_signature_witness :
    [PageRef.page 1, PageRef.page 2, PageRef.page 3, PageRef.page 4].length % 4 = 0
    ∧ (calculate_booklet_order [PageRef.page 1, PageRef.page 2, PageRef.page 3, PageRef.page 4]
          1 "western"
        = [(List.range
            ([PageRef.page 1, PageRef.page 2, PageRef.page 3, PageRef.page 4].length / 4)).map
            fun i =>
            Sheet.mk
              ([PageRef.page 1, PageRef.page 2, PageRef.page 3, PageRef.page 4].getD
                ([PageRef.page 1, PageRef.page 2, PageRef.page 3, PageRef.page 4].length - 1 - 2 * i)
                PageRef.blank)
              ([PageRef.page 1, PageRef.page 2, PageRef.page 3, PageRef.page 4].getD (2 * i)
                PageRef.blank)
              ([PageRef.page 1, PageRef.page 2, PageRef.page 3, PageRef.page 4].getD (2 * i + 1)
                PageRef.blank)
              ([PageRef.page 1, PageRef.page 2, PageRef.page 3, PageRef.page 4].getD
                ([PageRef.page 1, PageRef.page 2, PageRef.page 3, PageRef.page 4].length - 2 - 2 * i)
                PageRef.blank)]
    ∧ (0 < [PageRef.page 1, PageRef.page 2, PageRef.page 3, PageRef.page 4].length →
        (((calculate_booklet_order [PageRef.page 1, PageRef.page 2, PageRef.page 3, PageRef.page 4]
              1 "western").getD 0 []).getD 0 blankSheet).front_left
            = ([PageRef.page 1, PageRef.page 2, PageRef.page 3, PageRef.page 4].getLast?).getD
              PageRef.blank
        ∧ (((calculate_booklet_order [PageRef.page 1, PageRef.page 2, PageRef.page 3, PageRef.page 4]
              1 "western").getD 0 []).getD 0 blankSheet).front_right
            = ([PageRef.page 1, PageRef.page 2, PageRef.page 3, PageRef.page 4].head?).getD
              PageRef.blank)
    ∧ calculate_booklet_order (parse_page_selection "1-8" 8) 1 "western"
        = [[Sheet.mk (PageRef.page 8) (PageRef.page 1) (PageRef.page 2) (PageRef.page 7),
            Sheet.mk (PageRef.page 6) (PageRef.page 3) (PageRef.page 4) (PageRef.page 5)]]) :=
  ⟨by decide,
    booklet_order_single_signature
      [PageRef.page 1, PageRef.page 2, PageRef.page 3, PageRef.page 4] (by decide)⟩

/-- Default-juggling helper for C3: reading an entry of the mirrored plan. -/
lemma getD_map_mirror (W : List (List Sheet)) (i j : Nat) :
    ((W.map (List.map mirrorSheet)).getD i []).getD j blankSheet
      = mirrorSheet ((W.getD i []).getD j blankSheet) := by
  have h1 : (W.map (List.map mirrorSheet)).getD i (List.map mirrorSheet [])
      = List.map mirrorSheet (W.getD i []) :=
    @List.getD_map (List Sheet) (List Sheet) W [] i (List.map mirrorSheet)
  have h2 : (List.map mirrorSheet (W.getD i [])).getD j (mirrorSheet blankSheet)
      = mirrorSheet ((W.getD i []).getD j blankSheet) :=
    @List.getD_map Sheet Sheet (W.getD i []) blankSheet j mirrorSheet
  calc ((W.map (List.map mirrorSheet)).getD i []).getD j blankSheet
      = ((W.map (List.map mirrorSheet)).getD i (List.map mirrorSheet [])).getD j
          (mirrorSheet blankSheet) := rfl
    _ = (List.map mirrorSheet (W.getD i [])).getD j (mirrorSheet blankSheet) := by rw [h1]
    _ = mirrorSheet ((W.getD i []).getD j blankSheet) := h2

/-- C3: the manga plan is the left/right mirror of the western plan on the
same input: signature by signature and sheet by sheet,
`manga.front_left = western.front_right`, `manga.front_right =
western.front_left`, `manga.back_left = western.back_right`, and
`manga.back_right = western.back_left`. -/
theorem booklet_order_manga_mirror (pages : List PageRef) (k : Nat) :
    calculate_booklet_order pages k "manga"
        = (calculate_booklet_order pages k "western").map (List.map mirrorSheet)
    ∧ ∀ i j,
        (((calculate_booklet_order pages k "manga").getD i []).getD j blankSheet).front_left
          = (((calculate_booklet_order pages k "western").getD i []).getD j
              blankSheet).front_right
        ∧ (((calculate_booklet_order pages k "manga").getD i []).getD j blankSheet).front_right
          = (((calculate_booklet_order pages k "western").getD i []).getD j
              blankSheet).front_left
        ∧ (((calculate_booklet_order pages k "manga").getD i []).getD j blankSheet).back_left
          = (((calculate_booklet_order pages k "western").getD i []).getD j
              blankSheet).back_right
        ∧ (((calculate_booklet_order pages k "manga").getD i []).getD j blankSheet).back_right
          = (((calculate_booklet_order pages k "western").getD i []).getD j
              blankSheet).back_left := by
  have hmap : calculate_booklet_order pages k "manga"
      = (calculate_booklet_order pages k "western").map (List.map mirrorSheet) := by
    simp only [calculate_booklet_order, List.map_zipWith]
    congr 1
    funext c s
    rw [show decide True = true from by decide,
      show decide (("western" : String) = "manga") = false from by decide]
    exact imposeSignature_manga c s
  refine ⟨hmap, ?_⟩
  intro i j
  rw [hmap, getD_map_mirror]
  exact ⟨rfl, rfl, rfl, rfl⟩

/-- C7 counterexample: on pages `[1..8]`, one signature, western order, sheet 0
carries `(8, 1, 2, 7)`, which is not a permutation of any contiguous slice of
the padded selection `[1..8]`. -/
theorem sheet_refs_not_slice_perm :
    ¬ ∃ off len : Nat,
      (((padBlanks
            [PageRef.page 1, PageRef.page 2, PageRef.page 3, PageRef.page 4,
             PageRef.page 5, PageRef.page 6, PageRef.page 7, PageRef.page 8]
            (signatureSizes
              [PageRef.page 1, PageRef.page 2, PageRef.page 3, PageRef.page 4,
               PageRef.page 5, PageRef.page 6, PageRef.page 7, PageRef.page 8].length 1).sum).drop
          off).take len).Perm
        (sheetRefs (((calculate_booklet_order
            [PageRef.page 1, PageRef.page 2, PageRef.page 3, PageRef.page 4,
             PageRef.page 5, PageRef.page 6, PageRef.page 7, PageRef.page 8] 1
            "western").getD 0 []).getD 0 blankSheet)) := by
  have hpad : padBlanks
      [PageRef.page 1, PageRef.page 2, PageRef.page 3, PageRef.page 4,
       PageRef.page 5, PageRef.page 6, PageRef.page 7, PageRef.page 8]
      (signatureSizes
        [PageRef.page 1, PageRef.page 2, PageRef.page 3, PageRef.page 4,
         PageRef.page 5, PageRef.page 6, PageRef.page 7, PageRef.page 8].length 1).sum
      = [PageRef.page 1, PageRef.page 2, PageRef.page 3, PageRef.page 4,
         PageRef.page 5, PageRef.page 6, PageRef.page 7, PageRef.page 8] := by
    rw [padBlanks_eq]
    decide
  have hsheet : ((calculate_booklet_order
      [PageRef.page 1, PageRef.page 2, PageRef.page 3, PageRef.page 4,
       PageRef.page 5, PageRef.page 6, PageRef.page 7, PageRef.page 8] 1
      "western").getD 0 []).getD 0 blankSheet
      = Sheet.mk (PageRef.page 8) (PageRef.page 1) (PageRef.page 2) (PageRef.page 7) := by
    rw [calculate_booklet_order_one_sig _ (by decide)]
    decide
  rintro ⟨off, len, h⟩
  rw [hpad, hsheet] at h
  have hlen := h.length_eq
  simp only [List.length_take, List.length_drop, sheetRefs, List.length_cons,
    List.length_nil] at hlen
  have hoff : off ≤ 4 := by omega
  have hslice : ([PageRef.page 1, PageRef.page 2, PageRef.page 3, PageRef.page 4,
        PageRef.page 5, PageRef.page 6, PageRef.page 7, PageRef.page 8].drop off).take len
      = ([PageRef.page 1, PageRef.page 2, PageRef.page 3, PageRef.page 4,
        PageRef.page 5, PageRef.page 6, PageRef.page 7, PageRef.page 8].drop off).take 4 := by
    by_cases hc : len ≤ 8 - off
    · have hlen4 : len = 4 := by omega
      rw [hlen4]
    · have hdl : ([PageRef.page 1, PageRef.page 2, PageRef.page 3, PageRef.page 4,
          PageRef.page 5, PageRef.page 6, PageRef.page 7, PageRef.page 8].drop off).length
          = 8 - off := by
        simp
      rw [List.take_of_length_le (by omega), List.take_of_length_le (by omega)]
  rw [hslice] at h
  interval_cases off
  · exact absurd h (by decide)
  · exact absurd h (by decide)
  · exact absurd h (by decide)
  · exact absurd h (by decide)
  · exact absurd h (by decide)

/-- C7 (amended): for every pages list, signature count, reading order and
signature index, the four page references of all the sheets of that signature
taken together are a permutation of the signature's contiguous chunk of the
padded selection; no page reference is invented or duplicated.  (Per
individual sheet the claim fails, see the counterexample.) -/
theorem signature_refs_slice_perm (pages : List PageRef) (k : Nat) (order : String)
    (j : Nat) (hj : j < k) :
    (((calculate_booklet_order pages k order).getD j []).flatMap sheetRefs).Perm
      (((padBlanks pages (signatureSizes pages.length k).sum).drop
          (((signatureSizes pages.length k).take j).sum)).take
        ((signatureSizes pages.length k).getD j 0)) := by
  have hk : 1 ≤ k := by omega
  have hjS : j < (signatureSizes pages.length k).length := by
    rw [length_signatureSizes]; exact hj
  have hpadlen : (padBlanks pages (signatureSizes pages.length k).sum).length
      = (signatureSizes pages.length k).sum := by
    rw [length_padBlanks]
    have := (signatureSizes_sum pages.length k hk).1
    omega
  have hplan : (calculate_booklet_order pages k order).getD j []
      = imposeSignature
          ((sliceChunks (padBlanks pages (signatureSizes pages.length k).sum)
            (signatureSizes pages.length k)).getD j [])
          ((signatureSizes pages.length k).getD j 0) (order = "manga") := by
    simp only [calculate_booklet_order]
    exact zipWith_getD_of_lt _ _ _ j [] [] 0
      (by rw [length_sliceChunks]; exact hjS) hjS
  rw [hplan, sliceChunks_getD]
  apply imposeSignature_flatMap_perm
  · have hle := sum_take_add_getD_le (signatureSizes pages.length k) j hjS
    simp only [List.length_take, List.length_drop, hpadlen]
    omega
  · rw [signatureSizes_getD pages.length k j hj]
    omega

theorem signature_refs_slice_perm_witness :
    1 < 2
    ∧ (((calculate_booklet_order
          [PageRef.page 1, PageRef.page 2, PageRef.page 3, PageRef.page 4, PageRef.page 5]
          2 "western").getD 1 []).flatMap sheetRefs).Perm
      (((padBlanks
          [PageRef.page 1, PageRef.page 2, PageRef.page 3, PageRef.page 4, PageRef.page 5]
          (signatureSizes
            [PageRef.page 1, PageRef.page 2, PageRef.page 3, PageRef.page 4,
             PageRef.page 5].length 2).sum).drop
          (((signatureSizes
            [PageRef.page 1, PageRef.page 2, PageRef.page 3, PageRef.page 4,
             PageRef.page 5].length 2).take 1).sum)).take
        ((signatureSizes
          [PageRef.page 1, PageRef.page 2, PageRef.page 3, PageRef.page 4,
           PageRef.page 5].length 2).getD 1 0)) :=
  ⟨by decide,
    signature_refs_slice_perm
      [PageRef.page 1, PageRef.page 2, PageRef.page 3, PageRef.page 4, PageRef.page 5]
      2 "western" 1 (by decide)⟩

/-! ## Position scanning of the spread validator -/

lemma enum_snoc (xs : List Int) (x : Int) :
    (xs ++ [x]).enum = xs.enum ++ [(xs.length, x)] := by
  rw [List.enum_append]
  rfl

lemma scanLast_snoc (xs : List Int) (x v : Int) :
    scanLast (xs ++ [x]) v = if x = v then some xs.length else scanLast xs v := by
  unfold scanLast
  rw [enum_snoc, List.foldl_append]
  rfl

lemma scanPositions_snoc (xs : List Int) (x l r : Int) :
    scanPositions (xs ++ [x]) l r
      = ((if x = l then some xs.length else (scanPositions xs l r).1),
         (if x = r then some xs.length else (scanPositions xs l r).2)) := by
  unfold scanPositions
  rw [enum_snoc, List.foldl_append]
  rfl

lemma scanPositions_eq (pages : List Int) (l r : Int) :
    scanPositions pages l r = (scanLast pages l, scanLast pages r) := by
  induction pages using List.reverseRecOn with
  | nil => rfl
  | append_singleton xs x ih =>
    rw [scanPositions_snoc, scanLast_snoc, scanLast_snoc, ih]

lemma scanLast_eq_none (pages : List Int) (x : Int) :
    scanLast pages x = none ↔ x ∉ pages := by
  induction pages using List.reverseRecOn with
  | nil => simp [scanLast]
  | append_singleton xs e ih =>
    rw [scanLast_snoc]
    by_cases he : e = x
    · simp [he]
    · simp [he, ih, List.mem_append]
      intro h
      exact fun habs => he habs.symm

lemma scanLast_eq_some (pages : List Int) (x : Int) (p : Nat)
    (h : scanLast pages x = some p) :
    pages[p]? = some x ∧ ∀ j, p < j → pages[j]? ≠ some x := by
  induction pages using List.reverseRecOn generalizing p with
  | nil => simp [scanLast] at h
  | append_singleton xs e ih =>
    rw [scanLast_snoc] at h
    by_cases he : e = x
    · rw [if_pos he] at h
      have hp : p = xs.length := by
        injection h with h'
        omega
      subst hp he
      constructor
      · rw [List.getElem?_append]
        simp
      · intro j hj
        have : (xs ++ [e]).length ≤ j := by
          simp only [List.length_append, List.length_cons, List.length_nil]
          omega
        rw [List.getElem?_eq_none this]
        simp
    · rw [if_neg he] at h
      have ihp := ih p h
      have hplt : p < xs.length := by
        rcases List.getElem?_eq_some_iff.mp ihp.1 with ⟨hlt, _⟩
        exact hlt
      constructor
      · rw [List.getElem?_append_left (by omega)]
        exact ihp.1
      · intro j hj
        by_cases hjlt : j < xs.length
        · rw [List.getElem?_append_left (by omega)]
          exact ihp.2 j hj
        · by_cases hjeq : j = xs.length
          · subst hjeq
            rw [List.getElem?_append_right (by omega)]
            simp only [Nat.sub_self]
            simp
            exact fun habs => he habs
          · have : (xs ++ [e]).length ≤ j := by
              simp only [List.length_append, List.length_cons, List.length_nil]
              omega
            rw [List.getElem?_eq_none this]
            simp

lemma check_spread_alignment_mem_elim (pages : List Int) (spreads : List SpreadPair)
    (r : SpreadPair × Nat × Nat × Bool) (hr : r ∈ check_spread_alignment pages spreads) :
    r.1 ∈ spreads
    ∧ scanLast pages r.1.left_page = some r.2.1
    ∧ scanLast pages r.1.right_page = some r.2.2.1
    ∧ r.2.2.2 = ((r.2.1 % 2 == 1 && r.2.2.1 == r.2.1 + 1) ||
        (r.2.2.1 % 2 == 1 && r.2.1 == r.2.2.1 + 1)) := by
  rcases List.mem_filterMap.mp hr with ⟨s, hs, hfs⟩
  rw [scanPositions_eq] at hfs
  rcases hL : scanLast pages s.left_page with _ | pl
  · rw [hL] at hfs
    simp at hfs
  · rcases hR : scanLast pages s.right_page with _ | pr
    · rw [hL, hR] at hfs
      simp at hfs
    · rw [hL, hR] at hfs
      simp only [Option.some_inj] at hfs
      subst hfs
      exact ⟨hs, hL, hR, rfl⟩

/-- C4 counterexample: on `pages = [2, 3, 2]` with the spread `(2, 3)`, the
validator reports `pos_left = 2` — the last occurrence of page 2 — although
its first occurrence index is 0, so the reported positions are not the first
occurrence indices. -/
theorem check_spread_alignment_not_first_occurrence :
    check_spread_alignment [2, 3, 2] [⟨2, 3⟩]
        = [(⟨2, 3⟩, 2, 1, true)]
    ∧ List.findIdx (fun y => y == (2 : Int)) [2, 3, 2] = 0
    ∧ (2 : Nat) ≠ 0 := by
  decide

/-- C4 (amended): for every pages list and spread list, each reported result
carries, for the spread's left and right page, the index of its LAST
occurrence in `pages` (the scanning loop overwrites earlier matches), not the
first. -/
theorem check_spread_alignment_last_occurrence (pages : List Int) (spreads : List SpreadPair)
    (r : SpreadPair × Nat × Nat × Bool) (hr : r ∈ check_spread_alignment pages spreads) :
    (pages[r.2.1]? = some r.1.left_page
      ∧ ∀ j, r.2.1 < j → pages[j]? ≠ some r.1.left_page)
    ∧ (pages[r.2.2.1]? = some r.1.right_page
      ∧ ∀ j, r.2.2.1 < j → pages[j]? ≠ some r.1.right_page) := by
  have h := check_spread_alignment_mem_elim pages spreads r hr
  exact ⟨scanLast_eq_some pages r.1.left_page r.2.1 h.2.1,
    scanLast_eq_some pages r.1.right_page r.2.2.1 h.2.2.1⟩

theorem check_spread_alignment_last_occurrence_witness :
    ((⟨2, 3⟩, 2, 1, true) : SpreadPair × Nat × Nat × Bool)
        ∈ check_spread_alignment [2, 3, 2] [⟨2, 3⟩]
    ∧ (([2, 3, 2] : List Int)[2]? = some 2
        ∧ ∀ j, 2 < j → ([2, 3, 2] : List Int)[j]? ≠ some 2)
    ∧ (([2, 3, 2] : List Int)[1]? = some 3
        ∧ ∀ j, 1 < j → ([2, 3, 2] : List Int)[j]? ≠ some 3) :=
  ⟨by decide,
    check_spread_alignment_last_occurrence [2, 3, 2] [⟨2, 3⟩] (⟨2, 3⟩, 2, 1, true) (by decide)⟩

/-- C5: a found pair is reported aligned iff the lower of its two recorded
positions is odd and the higher equals the lower plus one; a pair either of
whose pages is absent from the list is skipped entirely; on `[1,2,3,4]` the
spread `(2,3)` is aligned at positions `(1,2)` and the spread `(1,2)` is
misaligned at positions `(0,1)`. -/
theorem check_spread_alignment_aligned_iff (pages : List Int) (spreads : List SpreadPair) :
    (∀ r ∈ check_spread_alignment pages spreads,
        (r.2.2.2 = true ↔
          (min r.2.1 r.2.2.1) % 2 = 1 ∧ max r.2.1 r.2.2.1 = min r.2.1 r.2.2.1 + 1))
    ∧ (∀ s ∈ spreads, (s.left_page ∉ pages ∨ s.right_page ∉ pages) →
        ∀ r ∈ check_spread_alignment pages spreads, r.1 ≠ s)
    ∧ check_spread_alignment [1, 2, 3, 4] [⟨2, 3⟩] = [(⟨2, 3⟩, 1, 2, true)]
    ∧ check_spread_alignment [1, 2, 3, 4] [⟨1, 2⟩] = [(⟨1, 2⟩, 0, 1, false)] := by
  refine ⟨?_, ?_, by decide, by decide⟩
  · intro r hr
    have h := (check_spread_alignment_mem_elim pages spreads r hr).2.2.2
    rw [h]
    simp only [Bool.or_eq_true, Bool.and_eq_true, beq_iff_eq]
    omega
  · intro s _ habs r hr heq
    have h := check_spread_alignment_mem_elim pages spreads r hr
    rw [heq] at h
    rcases habs with habs | habs
    · rw [← scanLast_eq_none pages s.left_page] at habs
      rw [habs] at h
      exact Option.noConfusion h.2.1
    · rw [← scanLast_eq_none pages s.right_page] at habs
      rw [habs] at h
      exact Option.noConfusion h.2.2.1

theorem check_spread_alignment_aligned_iff_witness :
    ((⟨2, 3⟩, 1, 2, true) : SpreadPair × Nat × Nat × Bool)
        ∈ check_spread_alignment [1, 2, 3, 4] [⟨2, 3⟩]
    ∧ (true = true ↔ (min 1 2 % 2 = 1 ∧ max 1 2 = min 1 2 + 1)) :=
  ⟨by decide,
    (check_spread_alignment_aligned_iff [1, 2, 3, 4] [⟨2, 3⟩]).1
      (⟨2, 3⟩, 1, 2, true) (by decide)⟩

/-- C9: `SpreadPair(3,2)` normalizes to `left=2, right=3`; `SpreadPair(1,5)`
raises; every successfully constructed pair satisfies `left < right` and
`right = left + 1`. -/
theorem mkSpreadPair_normalizes :
    mkSpreadPair 3 2 = Except.ok ⟨2, 3⟩
    ∧ (∃ msg, mkSpreadPair 1 5 = Except.error msg)
    ∧ ∀ l r p, mkSpreadPair l r = Except.ok p →
        p.left_page < p.right_page ∧ p.right_page = p.left_page + 1 := by
  refine ⟨by rfl, ⟨_, rfl⟩, ?_⟩
  intro l r p h
  unfold mkSpreadPair at h
  split at h
  · exact Except.noConfusion h
  · rename_i hadj
    have h1 : (l - r).natAbs = 1 := by omega
    split at h
    · rename_i hlt
      simp only [Except.ok.injEq] at h
      subst h
      constructor
      · show r < l
        omega
      · show l = r + 1
        omega
    · rename_i hge
      simp only [Except.ok.injEq] at h
      subst h
      constructor
      · show l < r
        omega
      · show r = l + 1
        omega

theorem mkSpreadPair_normalizes_witness :
    mkSpreadPair 5 4 = Except.ok ⟨4, 5⟩
    ∧ (SpreadPair.mk 4 5).left_page < (SpreadPair.mk 4 5).right_page
    ∧ (SpreadPair.mk 4 5).right_page = (SpreadPair.mk 4 5).left_page + 1 :=
  ⟨by rfl,
    (mkSpreadPair_normalizes.2.2 5 4 ⟨4, 5⟩ (by rfl)).1,
    (mkSpreadPair_normalizes.2.2 5 4 ⟨4, 5⟩ (by rfl)).2⟩

/-! ## Smart-blanks helper lemmas -/

lemma insertIdx_eq_take_append (pos : Nat) (x : PageRef) (l : List PageRef)
    (h : pos ≤ l.length) :
    l.insertIdx pos x = l.take pos ++ x :: l.drop pos := by
  induction l generalizing pos with
  | nil =>
    have : pos = 0 := by simpa using h
    subst this
    rfl
  | cons a t ih =>
    cases pos with
    | zero => rfl
    | succ pos =>
      rw [List.insertIdx_succ_cons, ih pos (by simpa using h)]
      rfl

lemma insertRepeated_eq (pos : Nat) (x : PageRef) (n : Nat) (l : List PageRef)
    (h : pos ≤ l.length) :
    insertRepeated pos x n l = l.take pos ++ List.replicate n x ++ l.drop pos := by
  induction n with
  | zero =>
    simp [insertRepeated, List.take_append_drop]
  | succ n ih =>
    have hT : (l.take pos).length = pos := by
      rw [List.length_take]
      omega
    have hlen : pos ≤ (l.take pos ++ List.replicate n x ++ l.drop pos).length := by
      simp only [List.length_append, hT]
      omega
    show (insertRepeated pos x n l).insertIdx pos x = _
    rw [ih, insertIdx_eq_take_append pos x _ hlen]
    have htake : (l.take pos ++ List.replicate n x ++ l.drop pos).take pos = l.take pos := by
      rw [List.append_assoc, List.take_append_of_le_length (by omega),
        List.take_of_length_le (by omega)]
    have hdrop : (l.take pos ++ List.replicate n x ++ l.drop pos).drop pos
        = List.replicate n x ++ l.drop pos := by
      rw [List.append_assoc]
      have hdl := List.drop_left (l.take pos) (List.replicate n x ++ l.drop pos)
      rw [hT] at hdl
      exact hdl
    rw [htake, hdrop]
    simp [List.replicate_succ]

lemma not_mem_take_indexOf (L : List PageRef) (x : PageRef) :
    x ∉ L.take (List.indexOf x L) := by
  intro h
  rcases List.mem_take_iff_getElem.mp h with ⟨i, hm, hL⟩
  have hi : i < List.indexOf x L := by
    rcases Nat.lt_min.mp (by simpa using hm) with ⟨h1, _⟩
    exact h1
  have hfalse := @List.not_of_lt_findIdx PageRef (fun y => y == x) L i hi
  rw [hL] at hfalse
  simp at hfalse

lemma indexOf_insertRepeated (L : List PageRef) (x : PageRef) (n : Nat)
    (hmem : x ∈ L) (hx : x ≠ PageRef.blank) :
    List.indexOf x
        (L.take (List.indexOf x L) ++ List.replicate n PageRef.blank
          ++ L.drop (List.indexOf x L))
      = List.indexOf x L + n := by
  have hp : List.indexOf x L < L.length := List.indexOf_lt_length.mpr hmem
  have hnot1 : x ∉ L.take (List.indexOf x L) := not_mem_take_indexOf L x
  have hnot2 : x ∉ List.replicate n PageRef.blank := by
    intro h
    exact hx (List.eq_of_mem_replicate h)
  have hnot : x ∉ L.take (List.indexOf x L) ++ List.replicate n PageRef.blank := by
    rw [List.mem_append]
    rintro (h | h)
    · exact hnot1 h
    · exact hnot2 h
  rw [List.indexOf_append_of_not_mem hnot]
  have hdropeq : L.drop (List.indexOf x L)
      = L[List.indexOf x L] :: L.drop (List.indexOf x L + 1) := by
    rw [List.getElem_cons_drop]
  have hhead : L[List.indexOf x L] = x := List.getElem_indexOf hp
  rw [hdropeq, hhead, List.indexOf_cons_self]
  simp only [List.length_append, List.length_take, List.length_replicate]
  omega

lemma calculate_smart_blanks_back_cover_eq (pages : List PageRef) (fc : Option Nat)
    (bc : Nat) (sp : List (Nat × Nat)) (hbc : bc ≠ 0)
    (hmem : PageRef.page bc ∈ afterSpreadSteps pages fc sp) :
    (calculate_smart_blanks pages fc (some bc) sp).1
      = insertRepeated
          (List.indexOf (PageRef.page bc) (afterSpreadSteps pages fc sp)) PageRef.blank
          (((afterSpreadSteps pages fc sp).length + 3) / 4 * 4 - 1
            - List.indexOf (PageRef.page bc) (afterSpreadSteps pages fc sp))
          (afterSpreadSteps pages fc sp) := by
  show (back_cover_step (some bc) (spreads_step sp (front_cover_step fc pages))).1 = _
  simp only [back_cover_step]
  rw [if_pos ⟨hbc, hmem⟩,
    show (spreads_step sp (front_cover_step fc pages)).1 = afterSpreadSteps pages fc sp from rfl]
  by_cases hn : 0 < ((afterSpreadSteps pages fc sp).length + 3) / 4 * 4 - 1
      - List.indexOf (PageRef.page bc) (afterSpreadSteps pages fc sp)
  · rw [if_pos hn]
  · rw [if_neg hn]
    have h0 : ((afterSpreadSteps pages fc sp).length + 3) / 4 * 4 - 1
        - List.indexOf (PageRef.page bc) (afterSpreadSteps pages fc sp) = 0 := by omega
    rw [h0]
    rfl

/-- C10: when the back cover (a truthy page number) occurs in the working list
`L` obtained after the front-cover and spread steps, `calculate_smart_blanks`
inserts exactly `target - 1 - p` blanks immediately before it, where `p` is
its first index in `L` and `target = ((len(L) + 3) // 4) * 4`, so the back
cover ends at 0-based index `target - 1`; when pages follow the back cover the
result is longer than `target` (so not always a multiple of 4): pages
`[1,2,3,4]` with back cover 3 return `[1, 2, blank, 3, 4]` of length 5. -/
theorem smart_blanks_back_cover_position (pages : List PageRef) (fc : Option Nat)
    (bc : Nat) (sp : List (Nat × Nat)) (hbc : bc ≠ 0)
    (hmem : PageRef.page bc ∈ afterSpreadSteps pages fc sp) :
    (calculate_smart_blanks pages fc (some bc) sp).1
      = (afterSpreadSteps pages fc sp).take
          (List.indexOf (PageRef.page bc) (afterSpreadSteps pages fc sp))
        ++ List.replicate
            (((afterSpreadSteps pages fc sp).length + 3) / 4 * 4 - 1
              - List.indexOf (PageRef.page bc) (afterSpreadSteps pages fc sp)) PageRef.blank
        ++ (afterSpreadSteps pages fc sp).drop
            (List.indexOf (PageRef.page bc) (afterSpreadSteps pages fc sp))
    ∧ List.indexOf (PageRef.page bc) (calculate_smart_blanks pages fc (some bc) sp).1
        = ((afterSpreadSteps pages fc sp).length + 3) / 4 * 4 - 1
    ∧ (calculate_smart_blanks pages fc (some bc) sp).1.length
        = (afterSpreadSteps pages fc sp).length
          + (((afterSpreadSteps pages fc sp).length + 3) / 4 * 4 - 1
            - List.indexOf (PageRef.page bc) (afterSpreadSteps pages fc sp))
    ∧ (List.indexOf (PageRef.page bc) (afterSpreadSteps pages fc sp) + 1
          < (afterSpreadSteps pages fc sp).length →
        ((afterSpreadSteps pages fc sp).length + 3) / 4 * 4
          < (calculate_smart_blanks pages fc (some bc) sp).1.length)
    ∧ (calculate_smart_blanks
        [PageRef.page 1, PageRef.page 2, PageRef.page 3, PageRef.page 4]
        none (some 3) []).1
      = [PageRef.page 1, PageRef.page 2, PageRef.blank, PageRef.page 3, PageRef.page 4] := by
  have hp : List.indexOf (PageRef.page bc) (afterSpreadSteps pages fc sp)
      < (afterSpreadSteps pages fc sp).length := List.indexOf_lt_length.mpr hmem
  have hmain := calculate_smart_blanks_back_cover_eq pages fc bc sp hbc hmem
  rw [insertRepeated_eq _ _ _ _ (Nat.le_of_lt hp)] at hmain
  refine ⟨hmain, ?_, ?_, ?_, by decide⟩
  · rw [hmain]
    rw [indexOf_insertRepeated _ _ _ hmem (by intro h; exact PageRef.noConfusion h)]
    omega
  · rw [hmain]
    simp only [List.length_append, List.length_take, List.length_replicate, List.length_drop]
    omega
  · intro hfollow
    rw [hmain]
    simp only [List.length_append, List.length_take, List.length_replicate, List.length_drop]
    omega

theorem smart_blanks_back_cover_position_witness :
    (3 : Nat) ≠ 0
    ∧ PageRef.page 3 ∈ afterSpreadSteps
        [PageRef.page 1, PageRef.page 2, PageRef.page 3, PageRef.page 4] none []
    ∧ (calculate_smart_blanks
        [PageRef.page 1, PageRef.page 2, PageRef.page 3, PageRef.page 4] none (some 3) []).1
      = (afterSpreadSteps [PageRef.page 1, PageRef.page 2, PageRef.page 3, PageRef.page 4]
          none []).take
          (List.indexOf (PageRef.page 3)
            (afterSpreadSteps [PageRef.page 1, PageRef.page 2, PageRef.page 3, PageRef.page 4]
              none []))
        ++ List.replicate
            (((afterSpreadSteps [PageRef.page 1, PageRef.page 2, PageRef.page 3, PageRef.page 4]
                none []).length + 3) / 4 * 4 - 1
              - List.indexOf (PageRef.page 3)
                (afterSpreadSteps
                  [PageRef.page 1, PageRef.page 2, PageRef.page 3, PageRef.page 4] none []))
            PageRef.blank
        ++ (afterSpreadSteps [PageRef.page 1, PageRef.page 2, PageRef.page 3, PageRef.page 4]
            none []).drop
            (List.indexOf (PageRef.page 3)
              (afterSpreadSteps [PageRef.page 1, PageRef.page 2, PageRef.page 3, PageRef.page 4]
                none [])) :=
  ⟨by decide, by decide,
    (smart_blanks_back_cover_position
      [PageRef.page 1, PageRef.page 2, PageRef.page 3, PageRef.page 4] none 3 []
      (by decide) (by decide)).1⟩

/-- C8 counterexample: with `front_cover = 5` on `[5, 1, 2, 3]` the service
returns the list unchanged — no leading blank is inserted, because the front
cover already sits at index 0 and the insertion only happens for a positive
index. -/
theorem smart_blanks_front_cover_no_insert :
    (calculate_smart_blanks
        [PageRef.page 5, PageRef.page 1, PageRef.page 2, PageRef.page 3]
        (some 5) none []).1
      = [PageRef.page 5, PageRef.page 1, PageRef.page 2, PageRef.page 3]
    ∧ (calculate_smart_blanks
        [PageRef.page 5, PageRef.page 1, PageRef.page 2, PageRef.page 3]
        (some 5) none []).1
      ≠ [PageRef.blank, PageRef.page 5, PageRef.page 1, PageRef.page 2, PageRef.page 3] := by
  constructor
  · decide
  · decide

/-- C8 (amended): `calculate_smart_blanks` with `front_cover = 5` on
`[5, 1, 2, 3]` inserts nothing and returns `[5, 1, 2, 3]`; the front-cover
step prepends one blank exactly when the cover's first index is positive
(e.g. `[1, 5, 2, 3]` becomes `[blank, 1, 5, 2, 3]` before padding). -/
theorem smart_blanks_front_cover_behavior :
    (calculate_smart_blanks
        [PageRef.page 5, PageRef.page 1, PageRef.page 2, PageRef.page 3]
        (some 5) none []).1
      = [PageRef.page 5, PageRef.page 1, PageRef.page 2, PageRef.page 3]
    ∧ (calculate_smart_blanks
        [PageRef.page 1, PageRef.page 5, PageRef.page 2, PageRef.page 3]
        (some 5) none []).1
      = [PageRef.blank, PageRef.page 1, PageRef.page 5, PageRef.page 2, PageRef.page 3,
         PageRef.blank, PageRef.blank, PageRef.blank]
    ∧ ∀ (pages : List PageRef) (fc : Nat), fc ≠ 0 → PageRef.page fc ∈ pages →
        (0 < List.indexOf (PageRef.page fc) pages →
          (front_cover_step (some fc) pages).1 = PageRef.blank :: pages)
        ∧ (List.indexOf (PageRef.page fc) pages = 0 →
          (front_cover_step (some fc) pages).1 = pages) := by
  refine ⟨by decide, by decide, ?_⟩
  intro pages fc hfc hmem
  constructor
  · intro hpos
    simp only [front_cover_step]
    rw [if_pos ⟨hfc, hmem⟩, if_pos hpos]
  · intro hzero
    simp only [front_cover_step]
    rw [if_pos ⟨hfc, hmem⟩, if_neg (by omega)]

theorem smart_blanks_front_cover_behavior_witness :
    (5 : Nat) ≠ 0
    ∧ PageRef.page 5 ∈ [PageRef.page 1, PageRef.page 5]
    ∧ ((0 < List.indexOf (PageRef.page 5) [PageRef.page 1, PageRef.page 5] →
          (front_cover_step (some 5) [PageRef.page 1, PageRef.page 5]).1
            = PageRef.blank :: [PageRef.page 1, PageRef.page 5])
        ∧ (List.indexOf (PageRef.page 5) [PageRef.page 1, PageRef.page 5] = 0 →
          (front_cover_step (some 5) [PageRef.page 1, PageRef.page 5]).1
            = [PageRef.page 1, PageRef.page 5])) :=
  ⟨by decide, by decide,
    smart_blanks_front_cover_behavior.2.2 [PageRef.page 1, PageRef.page 5] 5
      (by decide) (by decide)⟩

/-- C6 counterexample: the range token `11-12` with both endpoints outside
`[1, 10]` contributes nothing at all — after the one-sided adjustment
`start := max 1 start`, `end := min total end` the range `[11..10]` is empty,
so the token IS silently dropped and no clamped-into-range list is emitted. -/
theorem parse_range_token_dropped :
    parse_page_selection "11-12" 10 = []
    ∧ ∀ start stop : Nat, 1 ≤ start → stop ≤ 10 → start ≤ stop →
        parse_page_selection "11-12" 10
          ≠ (List.range' start (stop + 1 - start)).map PageRef.page := by
  have h0 : parse_page_selection "11-12" 10 = [] := by decide
  refine ⟨h0, ?_⟩
  intro start stop h1 h2 h3 habs
  rw [h0] at habs
  have hlen := congrArg List.length habs
  simp only [List.length_nil, List.length_map, List.length_range'] at hlen
  omega

/-- C6 (amended): a range token is adjusted one-sidedly — `start := max 1
start` and `end := min total_pages end`, applied only when `start < 1` or
`end > total_pages` — and the ascending run from the adjusted start to the
adjusted end is emitted, which is empty (the token is dropped) whenever the
adjusted start exceeds the adjusted end; a single page number outside
`[1, total_pages]` is skipped.  `parse("1-20", 10) = [1..10]`,
`parse("11-12", 10) = []`, `parse("15", 10) = []`. -/
theorem parse_range_clamping (total : Nat) :
    (∀ (s : String) (s1 s2 : List Char) (start stop : Nat),
        pySplit ',' s.data = [s.data] →
        ¬((pyStrip s.data).map pyLower = "b".data
          ∨ (pyStrip s.data).map pyLower = "blank".data) →
        ((pyStrip s.data).map pyLower).contains '-' = true →
        pySplit '-' ((pyStrip s.data).map pyLower) = [s1, s2] →
        pyInt? s1 = some start →
        pyInt? s2 = some stop →
        parse_page_selection s total
          = if start < 1 ∨ total < stop
            then (List.range' (max 1 start) (min total stop + 1 - max 1 start)).map PageRef.page
            else (List.range' start (stop + 1 - start)).map PageRef.page)
    ∧ (∀ (s : String) (p : Nat),
        pySplit ',' s.data = [s.data] →
        ((pyStrip s.data).map pyLower).contains '-' = false →
        pyInt? ((pyStrip s.data).map pyLower) = some p →
        parse_page_selection s total
          = if 1 ≤ p ∧ p ≤ total then [PageRef.page p] else [])
    ∧ parse_page_selection "1-20" 10
        = [PageRef.page 1, PageRef.page 2, PageRef.page 3, PageRef.page 4, PageRef.page 5,
           PageRef.page 6, PageRef.page 7, PageRef.page 8, PageRef.page 9, PageRef.page 10]
    ∧ parse_page_selection "11-12" 10 = []
    ∧ parse_page_selection "15" 10 = [] := by
  refine ⟨?_, ?_, by decide, by decide, by decide⟩
  · intro s s1 s2 start stop hsplit hnotb hdash hsplit2 hint1 hint2
    unfold parse_page_selection
    rw [hsplit]
    simp only [List.map_cons, List.map_nil, List.flatten_cons, List.flatten_nil,
      List.append_nil]
    simp only [tokenPages]
    rw [if_neg hnotb, if_pos hdash, hsplit2]
    simp only [hint1, hint2]
    by_cases hc : start < 1 ∨ total < stop
    · rw [if_pos hc, if_pos hc]
    · rw [if_neg hc, if_neg hc]
  · intro s p hsplit hdash hint
    have hb : ¬((pyStrip s.data).map pyLower = "b".data
        ∨ (pyStrip s.data).map pyLower = "blank".data) := by
      rintro (h | h) <;> rw [h] at hint
      · rw [show pyInt? "b".data = none from by decide] at hint
        exact Option.noConfusion hint
      · rw [show pyInt? "blank".data = none from by decide] at hint
        exact Option.noConfusion hint
    unfold parse_page_selection
    rw [hsplit]
    simp only [List.map_cons, List.map_nil, List.flatten_cons, List.flatten_nil,
      List.append_nil]
    simp only [tokenPages]
    rw [if_neg hb, if_neg (by rw [hdash]; exact Bool.false_ne_true), hint]

theorem parse_range_clamping_witness :
    pyInt? ("30".data) = some 30
    ∧ (parse_page_selection "2-30" 10
        = if 2 < 1 ∨ 10 < 30
          then (List.range' (max 1 2) (min 10 30 + 1 - max 1 2)).map PageRef.page
          else (List.range' 2 (30 + 1 - 2)).map PageRef.page)
    ∧ (parse_page_selection "7" 10 = if 1 ≤ 7 ∧ 7 ≤ 10 then [PageRef.page 7] else []) :=
  ⟨by decide,
    (parse_range_clamping 10).1 "2-30" ("2".data) ("30".data) 2 30
      (by decide) (by decide) (by decide) (by decide) (by decide) (by decide),
    (parse_range_clamping 10).2.1 "7" 7 (by decide) (by decide) (by decide)⟩
